import Mathlib

/-!
Shallow embedding of the `mlops-adtech-api` repository: the daily
recommendations pipeline (`src/tp_pipeline_dag.py`) and the two serving
API implementations (`src/main.py`, `src/tp-api/app/main.py`).

Conventions used by the embedding:

* advertiser and product identifiers are naturals; their order stands for
  the id order that pandas uses when sorting group keys;
* a pandas DataFrame is a list of records in row order;
* `groupby(keys)` aggregation produces one output row per distinct key,
  listed in ascending key order (pandas default `sort=True`);
* `sort_values` is a stable sort (pandas multi-column sorts are stable
  lexsorts); it is modelled with `List.insertionSort`, whose stability
  Mathlib proves (`pair_sublist_insertionSort`);
* `groupby(k).head(n)` keeps, in row order, the first `n` rows of each
  group; `groupby(k).cumcount()` numbers the rows of each group 0-based
  in row order; both are modelled with an explicit running counter;
* exact rationals stand for the values of the Python float division on
  the integer counts involved.
-/

namespace TpPipeline

/-- A row of the (filtered) product-view log: one row per observed
product view event.  Other CSV columns are ignored by the pipeline. -/
structure ProductView where
  advertiser_id : Nat
  product_id : Nat
  deriving DecidableEq, Repr

/-- A row of the (filtered) ad-view log: one row per ad event, with its
`type` column (the pipeline compares it against `"impression"` and
`"click"`). -/
structure AdView where
  advertiser_id : Nat
  product_id : Nat
  type : String
  deriving DecidableEq, Repr

/-- A row of the advertiser registry (`advertiser_ids.csv`). -/
structure AdvertiserRow where
  advertiser_id : Nat
  deriving DecidableEq, Repr

/-- Lexicographic order on `(advertiser_id, product_id)` group keys: the
order in which pandas `groupby([...]).size().reset_index()` lists the
group keys. -/
def pairLe (x y : Nat × Nat) : Prop :=
  x.1 < y.1 ∨ (x.1 = y.1 ∧ x.2 ≤ y.2)

instance : DecidableRel pairLe := fun x y =>
  inferInstanceAs (Decidable (x.1 < y.1 ∨ (x.1 = y.1 ∧ x.2 ≤ y.2)))

instance : IsTotal (Nat × Nat) pairLe :=
  ⟨by intro a b; unfold pairLe; omega⟩

instance : IsTrans (Nat × Nat) pairLe :=
  ⟨by intro a b c; unfold pairLe; omega⟩

/-- Output row of the `views = product_views_filtered.groupby(...)`
aggregation in `calcular_top_product`. -/
structure ViewsRow where
  advertiser_id : Nat
  product_id : Nat
  views : Nat
  deriving DecidableEq, Repr

/-- The distinct `(advertiser_id, product_id)` keys of the product-view
log, in the ascending order in which pandas lists group keys. -/
def viewKeys (rows : List ProductView) : List (Nat × Nat) :=
  List.insertionSort pairLe ((rows.map fun r => (r.advertiser_id, r.product_id)).dedup)

/-- `views = product_views_filtered.groupby(["advertiser_id",
"product_id"]).size().reset_index(name="views")`: one row per distinct
key carrying the row count of its group. -/
def group_views (rows : List ProductView) : List ViewsRow :=
  (viewKeys rows).map fun k =>
    ⟨k.1, k.2, rows.countP fun r => r.advertiser_id == k.1 && r.product_id == k.2⟩

/-- The comparison used by `views.sort_values(by=["advertiser_id",
"views"], ascending=[True, False])`: advertiser ascending, view count
descending. -/
def tpLe (x y : ViewsRow) : Prop :=
  x.advertiser_id < y.advertiser_id ∨
    (x.advertiser_id = y.advertiser_id ∧ y.views ≤ x.views)

instance : DecidableRel tpLe := fun x y =>
  inferInstanceAs (Decidable (x.advertiser_id < y.advertiser_id ∨
    (x.advertiser_id = y.advertiser_id ∧ y.views ≤ x.views)))

instance : IsTotal ViewsRow tpLe :=
  ⟨by intro a b; unfold tpLe; omega⟩

instance : IsTrans ViewsRow tpLe :=
  ⟨by intro a b c; unfold tpLe; omega⟩

/-- Strict lexicographic order on the `(advertiser_id, product_id)` key
carried by a `ViewsRow`: the order of the rows coming out of the
`groupby` aggregation. -/
def keyLt (x y : ViewsRow) : Prop :=
  x.advertiser_id < y.advertiser_id ∨
    (x.advertiser_id = y.advertiser_id ∧ x.product_id < y.product_id)

/-- The ranking order stated by the spec for top_product: advertisers
ascending; within an advertiser, views descending with ties broken by
ascending product_id. -/
def tpFullLt (x y : ViewsRow) : Prop :=
  x.advertiser_id < y.advertiser_id ∨
    (x.advertiser_id = y.advertiser_id ∧
      (y.views < x.views ∨ (x.views = y.views ∧ x.product_id < y.product_id)))

/-- First-match lookup in the running per-group counter used to model
`groupby.head` and `groupby.cumcount`; absent groups count 0. -/
def countFor (counts : List (Nat × Nat)) (a : Nat) : Nat :=
  match counts with
  | [] => 0
  | (k, c) :: rest => if k = a then c else countFor rest a

/-- `df.groupby(key).head(n)`: keeps, in row order, the first `n` rows of
each group (`adv` extracts the group key of a row). -/
def groupbyHead {α : Type} (adv : α → Nat) (n : Nat) :
    List α → List (Nat × Nat) → List α
  | [], _ => []
  | r :: rs, counts =>
    if countFor counts (adv r) < n then
      r :: groupbyHead adv n rs ((adv r, countFor counts (adv r) + 1) :: counts)
    else
      groupbyHead adv n rs counts

/-- `df.groupby(key).cumcount()`: pairs each row with its 0-based
position inside its group, in row order. -/
def cumcount {α : Type} (adv : α → Nat) :
    List α → List (Nat × Nat) → List (α × Nat)
  | [], _ => []
  | r :: rs, counts =>
    (r, countFor counts (adv r)) ::
      cumcount adv rs ((adv r, countFor counts (adv r) + 1) :: counts)

/-- A row of `top_product.csv`: the grouped view counts plus the
`model` and `rank` columns added by `calcular_top_product`. -/
structure TopProductRow where
  advertiser_id : Nat
  product_id : Nat
  views : Nat
  model : String
  rank : Nat
  deriving DecidableEq, Repr

/-- The tail of `calcular_top_product` after the `groupby(...).size()`
aggregation: stable sort by (advertiser ascending, views descending),
`groupby("advertiser_id").head(20)`, then `model` and
`rank = cumcount() + 1` columns. -/
def top_product_of_views (views : List ViewsRow) : List TopProductRow :=
  let sorted := List.insertionSort tpLe views
  let top := groupbyHead (fun r => r.advertiser_id) 20 sorted []
  (cumcount (fun r => r.advertiser_id) top []).map fun rc =>
    ⟨rc.1.advertiser_id, rc.1.product_id, rc.1.views, "top_product", rc.2 + 1⟩

/-- `calcular_top_product` of `src/tp_pipeline_dag.py` (lines 91-122),
as a function of the filtered product-view rows it reads. -/
def calcular_top_product (rows : List ProductView) : List TopProductRow :=
  top_product_of_views (group_views rows)

/-- Output row of the `agg = df.groupby(...).agg(impressions=...,
clicks=...)` aggregation in `calcular_top_ctr`. -/
structure AggRow where
  advertiser_id : Nat
  product_id : Nat
  impressions : Nat
  clicks : Nat
  deriving DecidableEq, Repr

/-- `AggRow` together with the `ctr` column added by
`agg["ctr"] = agg["clicks"] / agg["impressions"]`. -/
structure CtrRow where
  advertiser_id : Nat
  product_id : Nat
  impressions : Nat
  clicks : Nat
  ctr : ℚ
  deriving DecidableEq, Repr

/-- The distinct `(advertiser_id, product_id)` keys of the ad-view log,
in ascending pandas group-key order. -/
def adKeys (rows : List AdView) : List (Nat × Nat) :=
  List.insertionSort pairLe ((rows.map fun r => (r.advertiser_id, r.product_id)).dedup)

/-- The `agg` frame of `calcular_top_ctr`: per group, the number of rows
whose `type` is `"impression"` and the number whose `type` is `"click"`
(the sums of the 0/1 indicator columns built on lines 144-145). -/
def group_ads (rows : List AdView) : List AggRow :=
  (adKeys rows).map fun k =>
    ⟨k.1, k.2,
      rows.countP fun r =>
        r.advertiser_id == k.1 && r.product_id == k.2 && r.type == "impression",
      rows.countP fun r =>
        r.advertiser_id == k.1 && r.product_id == k.2 && r.type == "click"⟩

/-- The comparison used by `agg.sort_values(by=["advertiser_id", "ctr"],
ascending=[True, False])`. -/
def ctrLe (x y : CtrRow) : Prop :=
  x.advertiser_id < y.advertiser_id ∨
    (x.advertiser_id = y.advertiser_id ∧ y.ctr ≤ x.ctr)

instance : DecidableRel ctrLe := fun x y =>
  inferInstanceAs (Decidable (x.advertiser_id < y.advertiser_id ∨
    (x.advertiser_id = y.advertiser_id ∧ y.ctr ≤ x.ctr)))

instance : IsTotal CtrRow ctrLe := ⟨by
  intro a b
  unfold ctrLe
  rcases Nat.lt_trichotomy a.advertiser_id b.advertiser_id with h | h | h
  · exact Or.inl (Or.inl h)
  · rcases le_total b.ctr a.ctr with hc | hc
    · exact Or.inl (Or.inr ⟨h, hc⟩)
    · exact Or.inr (Or.inr ⟨h.symm, hc⟩)
  · exact Or.inr (Or.inl h)⟩

instance : IsTrans CtrRow ctrLe := ⟨by
  intro a b c hab hbc
  unfold ctrLe at hab hbc ⊢
  rcases hab with h1 | ⟨h1, h1c⟩
  · rcases hbc with h2 | ⟨h2, _⟩
    · exact Or.inl (h1.trans h2)
    · exact Or.inl (by omega)
  · rcases hbc with h2 | ⟨h2, h2c⟩
    · exact Or.inl (by omega)
    · exact Or.inr ⟨h1.trans h2, h2c.trans h1c⟩⟩

/-- A row of `top_ctr.csv`. -/
structure TopCtrRow where
  advertiser_id : Nat
  product_id : Nat
  impressions : Nat
  clicks : Nat
  ctr : ℚ
  model : String
  rank : Nat
  deriving DecidableEq, Repr

/-- The tail of `calcular_top_ctr` after the `groupby(...).agg(...)`
aggregation: keep groups with at least one impression, add the `ctr`
column, stable sort by (advertiser ascending, ctr descending),
`groupby("advertiser_id").head(20)`, then `model` and
`rank = cumcount() + 1` columns. -/
def top_ctr_of_agg (agg0 : List AggRow) : List TopCtrRow :=
  let agg := agg0.filter fun g => decide (0 < g.impressions)
  let withCtr := agg.map fun g =>
    CtrRow.mk g.advertiser_id g.product_id g.impressions g.clicks
      ((g.clicks : ℚ) / (g.impressions : ℚ))
  let sorted := List.insertionSort ctrLe withCtr
  let top := groupbyHead (fun r => r.advertiser_id) 20 sorted []
  (cumcount (fun r => r.advertiser_id) top []).map fun rc =>
    ⟨rc.1.advertiser_id, rc.1.product_id, rc.1.impressions, rc.1.clicks, rc.1.ctr,
      "top_ctr", rc.2 + 1⟩

/-- `calcular_top_ctr` of `src/tp_pipeline_dag.py` (lines 136-178), as a
function of the filtered ad-view rows it reads. -/
def calcular_top_ctr (rows : List AdView) : List TopCtrRow :=
  top_ctr_of_agg (group_ads rows)

/-- `filtrar_datos` of `src/tp_pipeline_dag.py` (lines 46-88), reduced
to its data transformation: restrict both logs to rows whose
advertiser is among the distinct registry ids
(`advertisers["advertiser_id"].unique()` + `isin`). -/
def filtrar_datos (advertisers : List AdvertiserRow) (product_views : List ProductView)
    (ads_views : List AdView) : List ProductView × List AdView :=
  let active_ids := (advertisers.map fun r => r.advertiser_id).dedup
  (product_views.filter fun r => active_ids.contains r.advertiser_id,
    ads_views.filter fun r => active_ids.contains r.advertiser_id)

/-- A stored `recommendations` row, as written by `db_writing`. -/
structure DbRow where
  date : Nat
  advertiser_id : Nat
  model : String
  product_id : Nat
  rank : Nat
  views : Option Nat
  impressions : Option Nat
  clicks : Option Nat
  ctr : Option ℚ
  deriving DecidableEq, Repr

/-- Lines 204-236 of `db_writing`: null-fill the columns missing from
each model's frame (`impressions`/`clicks`/`ctr` for top_product,
`views` for top_ctr), concatenate the two frames, stamp every row with
the DAG execution date `context["ds"]`, and order the columns to match
the SQL table. -/
def merge_recommendations (execution_date : Nat) (top_product : List TopProductRow)
    (top_ctr : List TopCtrRow) : List DbRow :=
  (top_product.map fun r =>
    ⟨execution_date, r.advertiser_id, r.model, r.product_id, r.rank,
      some r.views, none, none, none⟩)
  ++ (top_ctr.map fun r =>
    ⟨execution_date, r.advertiser_id, r.model, r.product_id, r.rank,
      none, some r.impressions, some r.clicks, some r.ctr⟩)

/-- A SQL statement executed by `db_writing` inside its transaction. -/
inductive DbOp where
  | deleteDate (d : Nat)
  | insertRows (rows : List DbRow)
  deriving DecidableEq, Repr

/-- Effect of one statement on the `recommendations` table. -/
def applyOp : DbOp → List DbRow → List DbRow
  | .deleteDate d, s => s.filter fun r => decide (¬ r.date = d)
  | .insertRows rows, s => s ++ rows

/-- Effect of a statement sequence, in order. -/
def applyOps : List DbOp → List DbRow → List DbRow
  | [], s => s
  | op :: ops, s => applyOps ops (applyOp op s)

/-- The error `db_writing` surfaces when its transaction fails. -/
inductive PersistenceError where
  | rolledBack
  deriving DecidableEq, Repr

/-- The two statements `db_writing` (lines 256-273) runs inside the
single `psycopg2.connect` context: `DELETE FROM recommendations WHERE
date = execution_date`, then the bulk `INSERT` of the merged rows, with
one `conn.commit()` after both. -/
def db_writing_ops (execution_date : Nat) (top_product : List TopProductRow)
    (top_ctr : List TopCtrRow) : List DbOp :=
  [.deleteDate execution_date,
    .insertRows (merge_recommendations execution_date top_product top_ctr)]

/-- Transactional execution of a statement sequence, with the psycopg2
contract of `with psycopg2.connect(...) as conn: ...` followed by
`conn.commit()`: the statements become visible only at the commit, and
any failure before the commit rolls the whole transaction back, leaving
the store unchanged and surfacing an error. -/
def runTransaction (failsBeforeCommit : Bool) (ops : List DbOp) (store : List DbRow) :
    List DbRow × Option PersistenceError :=
  if failsBeforeCommit then (store, some .rolledBack)
  else (applyOps ops store, none)

/-- The committed effect of `db_writing` on the `recommendations`
table for one run. -/
def db_writing (execution_date : Nat) (top_product : List TopProductRow)
    (top_ctr : List TopCtrRow) (store : List DbRow) : List DbRow :=
  applyOps (db_writing_ops execution_date top_product top_ctr) store

/-- `db_writing` as a transaction that may fail before its commit. -/
def db_writing_tx (failsBeforeCommit : Bool) (execution_date : Nat)
    (top_product : List TopProductRow) (top_ctr : List TopCtrRow)
    (store : List DbRow) : List DbRow × Option PersistenceError :=
  runTransaction failsBeforeCommit (db_writing_ops execution_date top_product top_ctr) store

/-- The store produced by one full pipeline run (filter, both rankers,
merge, materialize) on a prior store state. -/
def pipeline_run (execution_date : Nat) (advertisers : List AdvertiserRow)
    (product_views : List ProductView) (ads_views : List AdView)
    (store : List DbRow) : List DbRow :=
  let filtered := filtrar_datos advertisers product_views ads_views
  db_writing execution_date (calcular_top_product filtered.1)
    (calcular_top_ctr filtered.2) store

/-- A raw product-view row before type validation: `none` models a
malformed (missing or unparseable) `product_id` cell, which pandas
loads as a null. -/
structure RawProductView where
  advertiser_id : Nat
  product_id : Option Nat
  deriving DecidableEq, Repr

/-- Group keys of the raw product-view log: pandas `groupby` silently
drops rows whose group key is null (default `dropna=True`), without
counting them anywhere. -/
def viewKeysRaw (rows : List RawProductView) : List (Nat × Nat) :=
  List.insertionSort pairLe
    ((rows.filterMap fun r => r.product_id.map fun p => (r.advertiser_id, p)).dedup)

/-- The `groupby(...).size()` aggregation of `calcular_top_product`
applied to the raw log with possibly-null keys. -/
def group_views_raw (rows : List RawProductView) : List ViewsRow :=
  (viewKeysRaw rows).map fun k =>
    ⟨k.1, k.2, rows.countP fun r => r.advertiser_id == k.1 && r.product_id == some k.2⟩

/-- `calcular_top_product` run on the raw log: identical to
`calcular_top_product` except that rows with a null `product_id` are
dropped by the `groupby`. -/
def calcular_top_product_raw (rows : List RawProductView) : List TopProductRow :=
  top_product_of_views (group_views_raw rows)

end TpPipeline

namespace ServingApi

open TpPipeline

/-- The value of a nullable SQL float column as the Python DB driver
hands it to the API: null, a non-finite float, or a finite value. -/
inductive PyFloat where
  | nan
  | posInf
  | negInf
  | val (q : ℚ)
  deriving DecidableEq, Repr

/-- Whether a float value is finite (neither NaN nor infinite). -/
def isFiniteNum : PyFloat → Bool
  | .val _ => true
  | _ => false

/-- `safe_float` of `src/main.py` (lines 35-48): `None` stays `None`,
NaN and infinities become `None`, finite values pass through. -/
def safe_float : Option PyFloat → Option ℚ
  | none => none
  | some .nan => none
  | some .posInf => none
  | some .negInf => none
  | some (.val q) => some q

/-- Python's `str.lower()` on the (ASCII) model names the endpoints
receive: lower-case every character. -/
def pyLower (s : String) : String :=
  String.mk (s.data.map Char.toLower)

/-- A `recommendations` row as fetched by the serving APIs. -/
structure StoredRow where
  date : Nat
  advertiser_id : Nat
  model : String
  product_id : Nat
  rank : Nat
  views : Option Int
  impressions : Option Int
  clicks : Option Int
  ctr : Option PyFloat
  deriving DecidableEq, Repr

/-- One entry of the `recommendations` array built by
`get_recommendations` in `src/main.py` (lines 138-152). -/
structure ApiRec where
  date : Nat
  advertiser_id : Nat
  model : String
  product_id : Nat
  rank : Nat
  views : Option Int
  impressions : Option Int
  clicks : Option Int
  ctr : Option ℚ
  deriving DecidableEq, Repr

/-- The per-row dict built by the loop of `get_recommendations` in
`src/main.py`: every column verbatim, except `ctr`, which goes through
`safe_float`. -/
def main_api_rec (r : StoredRow) : ApiRec :=
  ⟨r.date, r.advertiser_id, r.model, r.product_id, r.rank,
    r.views, r.impressions, r.clicks, safe_float r.ctr⟩

/-- `ORDER BY rank ASC` comparison. -/
def rankLe (x y : StoredRow) : Prop := x.rank ≤ y.rank

instance : DecidableRel rankLe := fun x y =>
  inferInstanceAs (Decidable (x.rank ≤ y.rank))

/-- `get_recommendations` of `src/main.py` (lines 88-160): validate the
lower-cased model name (400 on failure, before any query), query the
rows of (today, adv, model) ordered by rank, 404 when empty, else build
the sanitized records. -/
def get_recommendations (adv : Nat) (model : String) (today : Nat)
    (db : List StoredRow) : Except Nat (List ApiRec) :=
  let model_normalized := pyLower model
  if model_normalized = "top_product" ∨ model_normalized = "top_ctr" then
    let rows := List.insertionSort rankLe (db.filter fun r =>
      r.date == today && r.advertiser_id == adv && r.model == model_normalized)
    if rows.isEmpty then .error 404
    else .ok (rows.map main_api_rec)
  else .error 400

/-- `ALLOWED_MODELS` of `src/tp-api/app/main.py`. -/
def ALLOWED_MODELS : List String := ["top_product", "top_ctr"]

/-- One entry of the `recs` array built by `recommendations` in
`src/tp-api/app/main.py` (lines 41-52); fields absent from the dict are
`none`. -/
structure TpApiItem where
  rank : Nat
  product_id : Nat
  views : Option Int := none
  impressions : Option Int := none
  clicks : Option Int := none
  ctr : Option PyFloat := none
  deriving DecidableEq, Repr

/-- The per-row item of `recommendations` in `src/tp-api/app/main.py`:
rank and product always; `views` for top_product; raw `impressions`,
`clicks` and `ctr` (no sanitization) for top_ctr. -/
def tp_api_item (model : String) (r : StoredRow) : TpApiItem :=
  if model = "top_product" then
    { rank := r.rank, product_id := r.product_id, views := r.views }
  else
    { rank := r.rank, product_id := r.product_id, impressions := r.impressions,
      clicks := r.clicks, ctr := r.ctr }

/-- `recommendations` of `src/tp-api/app/main.py` (lines 13-52):
validate the lower-cased model against `ALLOWED_MODELS` (400 on
failure, before any query), find the latest date with rows for
(adv, model) (404 when none), and return that day's rows ordered by
rank. -/
def tp_api_recommendations (adv : Nat) (model0 : String)
    (db : List StoredRow) : Except Nat (List TpApiItem) :=
  let model := pyLower model0
  if model ∈ ALLOWED_MODELS then
    let dates := (db.filter fun r =>
      r.advertiser_id == adv && r.model == model).map fun r => r.date
    match dates.max? with
    | none => .error 404
    | some day =>
      .ok ((List.insertionSort rankLe (db.filter fun r =>
        r.advertiser_id == adv && r.model == model && r.date == day)).map
          (tp_api_item model))
  else .error 400

end ServingApi

namespace TpPipeline

theorem countFor_head_eq (a c : Nat) (counts : List (Nat × Nat)) :
    countFor ((a, c) :: counts) a = c := by
  simp [countFor]

theorem countFor_head_ne {a b : Nat} (c : Nat) (counts : List (Nat × Nat))
    (h : ¬ b = a) : countFor ((b, c) :: counts) a = countFor counts a := by
  simp [countFor, h]

theorem mem_of_mem_groupbyHead {α : Type} {adv : α → Nat} {n : Nat} {r : α} :
    ∀ {l : List α} {counts : List (Nat × Nat)},
      r ∈ groupbyHead adv n l counts → r ∈ l
  | [], _, h => by simp [groupbyHead] at h
  | x :: xs, counts, h => by
    simp only [groupbyHead] at h
    by_cases hc : countFor counts (adv x) < n
    · rw [if_pos hc] at h
      rcases List.mem_cons.mp h with h | h
      · exact h ▸ List.mem_cons_self x xs
      · exact List.mem_cons_of_mem x (mem_of_mem_groupbyHead h)
    · rw [if_neg hc] at h
      exact List.mem_cons_of_mem x (mem_of_mem_groupbyHead h)

theorem mem_of_mem_cumcount {α : Type} {adv : α → Nat} {p : α × Nat} :
    ∀ {l : List α} {counts : List (Nat × Nat)},
      p ∈ cumcount adv l counts → p.1 ∈ l
  | [], _, h => by simp [cumcount] at h
  | x :: xs, counts, h => by
    simp only [cumcount] at h
    rcases List.mem_cons.mp h with h | h
    · rw [h]
      exact List.mem_cons_self x xs
    · exact List.mem_cons_of_mem x (mem_of_mem_cumcount h)

theorem groupbyHead_filter_length {α : Type} (adv : α → Nat) (n a : Nat) :
    ∀ (l : List α) (counts : List (Nat × Nat)), countFor counts a ≤ n →
      ((groupbyHead adv n l counts).filter fun r => adv r == a).length
        + countFor counts a ≤ n
  | [], counts, h => by simpa [groupbyHead] using h
  | x :: xs, counts, h => by
    simp only [groupbyHead]
    by_cases hc : countFor counts (adv x) < n
    · rw [if_pos hc]
      by_cases ha : adv x = a
      · subst ha
        have hrec := groupbyHead_filter_length adv n (adv x) xs
          ((adv x, countFor counts (adv x) + 1) :: counts)
          (by rw [countFor_head_eq]; omega)
        rw [countFor_head_eq] at hrec
        simp only [List.filter_cons, beq_self_eq_true, if_pos]
        simp only [List.length_cons]
        omega
      · have ha' : (adv x == a) = false := beq_eq_false_iff_ne.mpr ha
        have hrec := groupbyHead_filter_length adv n a xs
          ((adv x, countFor counts (adv x) + 1) :: counts)
          (by rw [countFor_head_ne _ _ ha]; exact h)
        rw [countFor_head_ne _ _ ha] at hrec
        simp only [List.filter_cons, ha', if_neg]
        simpa using hrec
    · rw [if_neg hc]
      exact groupbyHead_filter_length adv n a xs counts h

theorem cumcount_filter_ranks {α : Type} (adv : α → Nat) (a : Nat) :
    ∀ (l : List α) (counts : List (Nat × Nat)),
      ((cumcount adv l counts).filter fun rc => adv rc.1 == a).map (fun rc => rc.2 + 1)
        = List.range' (countFor counts a + 1) (l.filter fun r => adv r == a).length
  | [], counts => by simp [cumcount]
  | x :: xs, counts => by
    simp only [cumcount, List.filter_cons]
    by_cases ha : adv x = a
    · subst ha
      have hrec := cumcount_filter_ranks adv (adv x) xs
        ((adv x, countFor counts (adv x) + 1) :: counts)
      rw [countFor_head_eq] at hrec
      simp only [beq_self_eq_true, if_pos, List.map_cons, List.length_cons]
      rw [hrec, List.range'_succ]
    · have ha2 : ¬ ((adv x == a) = true) := by simp [ha]
      have hrec := cumcount_filter_ranks adv a xs
        ((adv x, countFor counts (adv x) + 1) :: counts)
      rw [countFor_head_ne _ _ ha] at hrec
      rw [if_neg ha2, if_neg ha2]
      exact hrec

end TpPipeline

namespace TpPipeline

open List in
theorem pair_sublist_of_mem {α : Type} {a b : α} :
    ∀ {l : List α}, a ∈ l → b ∈ l → a ≠ b → [a, b] <+ l ∨ [b, a] <+ l
  | [], ha, _, _ => absurd ha (List.not_mem_nil a)
  | x :: xs, ha, hb, hab => by
    rcases List.mem_cons.mp ha with rfl | ha'
    · have hb' : b ∈ xs := by
        rcases List.mem_cons.mp hb with rfl | hb'
        · exact absurd rfl hab
        · exact hb'
      exact Or.inl (List.cons_sublist_cons.mpr (List.singleton_sublist.mpr hb'))
    · rcases List.mem_cons.mp hb with rfl | hb'
      · exact Or.inr (List.cons_sublist_cons.mpr (List.singleton_sublist.mpr ha'))
      · exact (pair_sublist_of_mem ha' hb' hab).imp (fun h => h.cons x) (fun h => h.cons x)

open List in
theorem eq_of_pair_sublists_of_nodup {α : Type} {a b : α} :
    ∀ {l : List α}, l.Nodup → [a, b] <+ l → [b, a] <+ l → a = b
  | [], _, h1, _ => absurd (List.sublist_nil.mp h1) (by simp)
  | x :: xs, hnd, h1, h2 => by
    have hx : x ∉ xs := (List.nodup_cons.mp hnd).1
    have hnd' : xs.Nodup := (List.nodup_cons.mp hnd).2
    cases h1 with
    | cons _ h1' =>
      cases h2 with
      | cons _ h2' => exact eq_of_pair_sublists_of_nodup hnd' h1' h2'
      | cons₂ _ h2' => exact absurd (h1'.subset (by simp)) hx
    | cons₂ _ h1' =>
      cases h2 with
      | cons _ h2' => exact absurd (h2'.subset (by simp)) hx
      | cons₂ _ h2' => rfl

open List in
theorem insertionSort_pairwise_stable {α : Type} (le : α → α → Prop) [DecidableRel le]
    [IsTotal α le] [IsTrans α le] (lt0 : α → α → Prop) (l : List α)
    (hnd : l.Nodup) (hl : l.Pairwise lt0) :
    (List.insertionSort le l).Pairwise (fun x y => le x y ∧ (le y x → lt0 x y)) := by
  have hperm := List.perm_insertionSort le l
  have hndm : (List.insertionSort le l).Nodup := hperm.nodup_iff.mpr hnd
  have hsorted : (List.insertionSort le l).Pairwise le := List.sorted_insertionSort le l
  rw [List.pairwise_iff_forall_sublist]
  intro x y hsub
  have hxy : le x y := List.pairwise_iff_forall_sublist.mp hsorted hsub
  refine ⟨hxy, fun hyx => ?_⟩
  have hne : x ≠ y := by
    have hp : ([x, y] : List α).Nodup := hsub.nodup hndm
    simpa using (List.nodup_cons.mp hp).1
  have hxl : x ∈ l := hperm.subset (hsub.subset (by simp))
  have hyl : y ∈ l := hperm.subset (hsub.subset (by simp))
  rcases pair_sublist_of_mem hxl hyl hne with hxyl | hyxl
  · exact List.pairwise_iff_forall_sublist.mp hl hxyl
  · have hm : [y, x] <+ List.insertionSort le l :=
      List.pair_sublist_insertionSort hyx hyxl
    exact absurd (eq_of_pair_sublists_of_nodup hndm hsub hm) hne

end TpPipeline

namespace TpPipeline

theorem sortedKeys_pairwise (keys0 : List (Nat × Nat)) :
    (List.insertionSort pairLe keys0.dedup).Pairwise
      (fun k k' : Nat × Nat => k.1 < k'.1 ∨ (k.1 = k'.1 ∧ k.2 < k'.2)) := by
  have hnd : (List.insertionSort pairLe keys0.dedup).Nodup :=
    (List.perm_insertionSort pairLe keys0.dedup).nodup_iff.mpr (List.nodup_dedup keys0)
  have hle : (List.insertionSort pairLe keys0.dedup).Pairwise pairLe :=
    List.sorted_insertionSort pairLe keys0.dedup
  have hand := hle.and hnd
  refine hand.imp ?_
  intro k k' hkk
  obtain ⟨hle', hne⟩ := hkk
  unfold pairLe at hle'
  rcases hle' with h | ⟨h1, h2⟩
  · exact Or.inl h
  · rcases Nat.lt_or_ge k.2 k'.2 with h3 | h3
    · exact Or.inr ⟨h1, h3⟩
    · exact absurd (Prod.ext h1 (by omega)) hne

theorem group_views_pairwise (rows : List ProductView) :
    (group_views rows).Pairwise keyLt := by
  unfold group_views viewKeys
  exact List.Pairwise.map _ (fun a b h => h) (sortedKeys_pairwise _)

theorem group_views_nodup (rows : List ProductView) :
    (group_views rows).Nodup := by
  have h := group_views_pairwise rows
  exact h.imp fun hk heq => by subst heq; unfold keyLt at hk; omega

theorem top_product_order (rows : List ProductView) :
    (List.insertionSort tpLe (group_views rows)).Pairwise tpFullLt := by
  have h := insertionSort_pairwise_stable tpLe keyLt (group_views rows)
    (group_views_nodup rows) (group_views_pairwise rows)
  refine h.imp ?_
  intro x y hxy
  obtain ⟨hle, hcond⟩ := hxy
  unfold tpLe at hle
  unfold tpFullLt
  rcases hle with h1 | ⟨h1, h2⟩
  · exact Or.inl h1
  · rcases Nat.lt_or_ge y.views x.views with h3 | h3
    · exact Or.inr ⟨h1, Or.inl h3⟩
    · have hyx : tpLe y x := Or.inr ⟨h1.symm, by omega⟩
      have hk := hcond hyx
      unfold keyLt at hk
      rcases hk with h4 | ⟨h4, h5⟩
      · omega
      · exact Or.inr ⟨h1, Or.inr ⟨by omega, h5⟩⟩

theorem views_count_of_mem {rows : List ProductView} {r : ViewsRow}
    (h : r ∈ List.insertionSort tpLe (group_views rows)) :
    r.views = rows.countP fun v =>
      v.advertiser_id == r.advertiser_id && v.product_id == r.product_id := by
  have h' : r ∈ group_views rows := by simpa using h
  rcases List.mem_map.mp h' with ⟨k, _, rfl⟩
  rfl

theorem cumcount_fst {α : Type} (adv : α → Nat) :
    ∀ (l : List α) (counts : List (Nat × Nat)),
      (cumcount adv l counts).map Prod.fst = l
  | [], _ => rfl
  | x :: xs, counts => by
    simp only [cumcount, List.map_cons]
    rw [cumcount_fst adv xs]

theorem cumcount_filter_length {α : Type} (adv : α → Nat) (a : Nat)
    (l : List α) (counts : List (Nat × Nat)) :
    ((cumcount adv l counts).filter fun rc => adv rc.1 == a).length
      = (l.filter fun r => adv r == a).length := by
  have h := cumcount_fst adv l counts
  conv_rhs => rw [← h]
  rw [← List.countP_eq_length_filter, ← List.countP_eq_length_filter, List.countP_map]
  rfl

theorem top_product_model (views : List ViewsRow) :
    ∀ r ∈ top_product_of_views views, r.model = "top_product" := by
  intro r hr
  unfold top_product_of_views at hr
  rcases List.mem_map.mp hr with ⟨rc, _, rfl⟩
  rfl

theorem top_ctr_model (agg : List AggRow) :
    ∀ r ∈ top_ctr_of_agg agg, r.model = "top_ctr" := by
  intro r hr
  unfold top_ctr_of_agg at hr
  rcases List.mem_map.mp hr with ⟨rc, _, rfl⟩
  rfl

theorem top_product_filter_ranks (views : List ViewsRow) (a : Nat) :
    ((top_product_of_views views).filter fun r => r.advertiser_id == a).map
        (fun r => r.rank)
      = List.range' 1
        ((top_product_of_views views).filter fun r => r.advertiser_id == a).length := by
  dsimp only [top_product_of_views]
  rw [List.filter_map, List.map_map, List.length_map]
  have h1 := cumcount_filter_ranks (fun r : ViewsRow => r.advertiser_id) a
    (groupbyHead (fun r : ViewsRow => r.advertiser_id) 20
      (List.insertionSort tpLe views) []) []
  have h2 := cumcount_filter_length (fun r : ViewsRow => r.advertiser_id) a
    (groupbyHead (fun r : ViewsRow => r.advertiser_id) 20
      (List.insertionSort tpLe views) []) []
  rw [← h2] at h1
  exact h1

theorem top_product_filter_length (views : List ViewsRow) (a : Nat) :
    ((top_product_of_views views).filter fun r => r.advertiser_id == a).length ≤ 20 := by
  dsimp only [top_product_of_views]
  rw [List.filter_map, List.length_map]
  simp only [Function.comp_def]
  rw [cumcount_filter_length (fun r : ViewsRow => r.advertiser_id) a]
  have h := groupbyHead_filter_length (fun r : ViewsRow => r.advertiser_id) 20 a
    (List.insertionSort tpLe views) [] (by simp [countFor])
  simpa [countFor] using h

theorem top_ctr_filter_ranks (agg : List AggRow) (a : Nat) :
    ((top_ctr_of_agg agg).filter fun r => r.advertiser_id == a).map
        (fun r => r.rank)
      = List.range' 1
        ((top_ctr_of_agg agg).filter fun r => r.advertiser_id == a).length := by
  dsimp only [top_ctr_of_agg]
  rw [List.filter_map, List.map_map, List.length_map]
  have h1 := cumcount_filter_ranks (fun r : CtrRow => r.advertiser_id) a
    (groupbyHead (fun r : CtrRow => r.advertiser_id) 20
      (List.insertionSort ctrLe ((agg.filter fun g => decide (0 < g.impressions)).map
        fun g => CtrRow.mk g.advertiser_id g.product_id g.impressions g.clicks
          ((g.clicks : ℚ) / (g.impressions : ℚ)))) []) []
  have h2 := cumcount_filter_length (fun r : CtrRow => r.advertiser_id) a
    (groupbyHead (fun r : CtrRow => r.advertiser_id) 20
      (List.insertionSort ctrLe ((agg.filter fun g => decide (0 < g.impressions)).map
        fun g => CtrRow.mk g.advertiser_id g.product_id g.impressions g.clicks
          ((g.clicks : ℚ) / (g.impressions : ℚ)))) []) []
  rw [← h2] at h1
  exact h1

theorem top_ctr_filter_length (agg : List AggRow) (a : Nat) :
    ((top_ctr_of_agg agg).filter fun r => r.advertiser_id == a).length ≤ 20 := by
  dsimp only [top_ctr_of_agg]
  rw [List.filter_map, List.length_map]
  simp only [Function.comp_def]
  rw [cumcount_filter_length (fun r : CtrRow => r.advertiser_id) a]
  have h := groupbyHead_filter_length (fun r : CtrRow => r.advertiser_id) 20 a
    (List.insertionSort ctrLe (((agg.filter fun g => decide (0 < g.impressions)).map
      fun g => CtrRow.mk g.advertiser_id g.product_id g.impressions g.clicks
        ((g.clicks : ℚ) / (g.impressions : ℚ))))) [] (by simp [countFor])
  simpa [countFor] using h

end TpPipeline

namespace TpPipeline

theorem merge_date (ds : Nat) (tp : List TopProductRow) (tc : List TopCtrRow) :
    ∀ r ∈ merge_recommendations ds tp tc, r.date = ds := by
  intro r hr
  unfold merge_recommendations at hr
  rcases List.mem_append.mp hr with h | h <;>
    rcases List.mem_map.mp h with ⟨x, _, rfl⟩ <;> rfl

theorem db_writing_eq (ds : Nat) (tp : List TopProductRow) (tc : List TopCtrRow)
    (store : List DbRow) :
    db_writing ds tp tc store =
      (store.filter fun r => decide (¬ r.date = ds)) ++ merge_recommendations ds tp tc := rfl

theorem merge_filter_ne_date (ds : Nat) (tp : List TopProductRow) (tc : List TopCtrRow) :
    (merge_recommendations ds tp tc).filter (fun r => decide (¬ r.date = ds)) = [] := by
  rw [List.filter_eq_nil_iff]
  intro r hr
  simp [merge_date ds tp tc r hr]

theorem merge_filter_date (ds : Nat) (tp : List TopProductRow) (tc : List TopCtrRow) :
    (merge_recommendations ds tp tc).filter (fun r => r.date == ds)
      = merge_recommendations ds tp tc := by
  rw [List.filter_eq_self]
  intro r hr
  simp [merge_date ds tp tc r hr]

theorem store_filter_twice (ds : Nat) (store : List DbRow) :
    ((store.filter fun r => decide (¬ r.date = ds)).filter
        fun r => decide (¬ r.date = ds))
      = store.filter fun r => decide (¬ r.date = ds) := by
  rw [List.filter_filter]
  exact List.filter_congr fun a _ => by simp

theorem store_filter_then_date (ds : Nat) (store : List DbRow) :
    ((store.filter fun r => decide (¬ r.date = ds)).filter fun r => r.date == ds) = [] := by
  rw [List.filter_eq_nil_iff]
  intro r hr
  have h := (List.mem_filter.mp hr).2
  simp at h
  simp [h]

theorem top_ctr_mem {rows : List AdView} {r : TopCtrRow}
    (h : r ∈ calcular_top_ctr rows) :
    0 < r.impressions ∧
    r.impressions = rows.countP (fun v => v.advertiser_id == r.advertiser_id &&
      v.product_id == r.product_id && v.type == "impression") ∧
    r.clicks = rows.countP (fun v => v.advertiser_id == r.advertiser_id &&
      v.product_id == r.product_id && v.type == "click") ∧
    r.ctr = (r.clicks : ℚ) / (r.impressions : ℚ) := by
  unfold calcular_top_ctr top_ctr_of_agg at h
  rcases List.mem_map.mp h with ⟨rc, hrc, rfl⟩
  have h1 : rc.1 ∈ List.insertionSort ctrLe ((List.filter
      (fun g => decide (0 < g.impressions)) (group_ads rows)).map
      fun g => CtrRow.mk g.advertiser_id g.product_id g.impressions g.clicks
        ((g.clicks : ℚ) / (g.impressions : ℚ))) :=
    mem_of_mem_groupbyHead (mem_of_mem_cumcount hrc)
  have h2 : rc.1 ∈ (List.filter (fun g => decide (0 < g.impressions))
      (group_ads rows)).map
      fun g => CtrRow.mk g.advertiser_id g.product_id g.impressions g.clicks
        ((g.clicks : ℚ) / (g.impressions : ℚ)) := by
    simpa using h1
  rcases List.mem_map.mp h2 with ⟨g, hgf, hmk⟩
  have hg := List.mem_filter.mp hgf
  have himp : 0 < g.impressions := by simpa using hg.2
  rcases List.mem_map.mp hg.1 with ⟨k, _, rfl⟩
  rw [← hmk]
  exact ⟨himp, rfl, rfl, rfl⟩

theorem raw_keys_filter :
    ∀ rows : List RawProductView,
      (rows.filter fun r => r.product_id.isSome).filterMap
          (fun r => r.product_id.map fun p => (r.advertiser_id, p))
        = rows.filterMap (fun r => r.product_id.map fun p => (r.advertiser_id, p))
  | [] => rfl
  | x :: xs => by
    cases hx : x.product_id with
    | none => simp [List.filter_cons, List.filterMap_cons, hx, raw_keys_filter xs]
    | some p => simp [List.filter_cons, List.filterMap_cons, hx, raw_keys_filter xs]

theorem raw_countP_filter (k : Nat × Nat) :
    ∀ rows : List RawProductView,
      (rows.filter fun r => r.product_id.isSome).countP
          (fun r => r.advertiser_id == k.1 && r.product_id == some k.2)
        = rows.countP (fun r => r.advertiser_id == k.1 && r.product_id == some k.2)
  | [] => rfl
  | x :: xs => by
    cases hx : x.product_id with
    | none =>
      simp [List.filter_cons, List.countP_cons, hx, raw_countP_filter k xs]
    | some p =>
      simp only [List.filter_cons, hx, Option.isSome_some, if_pos, List.countP_cons,
        raw_countP_filter k xs]

theorem group_views_raw_filter (rows : List RawProductView) :
    group_views_raw (rows.filter fun r => r.product_id.isSome)
      = group_views_raw rows := by
  unfold group_views_raw viewKeysRaw
  rw [raw_keys_filter rows]
  refine List.map_congr_left ?_
  intro k _
  rw [raw_countP_filter k rows]

end TpPipeline

namespace TpPipeline

/-- C3: running the whole pipeline twice for the same run date with
identical inputs leaves the store in the same observable state as
running it once; the materialization replaces any prior rows of the run
date, and the rows stored for that date are exactly the merged output,
so the store holds at most one row-set per date. -/
theorem c3_materialization_idempotent (ds : Nat) (advertisers : List AdvertiserRow)
    (pv : List ProductView) (ads : List AdView) (tp : List TopProductRow)
    (tc : List TopCtrRow) (store : List DbRow) :
    pipeline_run ds advertisers pv ads (pipeline_run ds advertisers pv ads store)
      = pipeline_run ds advertisers pv ads store ∧
    db_writing ds tp tc (db_writing ds tp tc store) = db_writing ds tp tc store ∧
    (db_writing ds tp tc store).filter (fun r => r.date == ds)
      = merge_recommendations ds tp tc := by
  have hgen : ∀ (tp2 : List TopProductRow) (tc2 : List TopCtrRow) (s : List DbRow),
      db_writing ds tp2 tc2 (db_writing ds tp2 tc2 s) = db_writing ds tp2 tc2 s := by
    intro tp2 tc2 s
    simp only [db_writing_eq]
    rw [List.filter_append, store_filter_twice, merge_filter_ne_date, List.append_nil]
  refine ⟨hgen _ _ _, hgen _ _ _, ?_⟩
  rw [db_writing_eq, List.filter_append, store_filter_then_date, merge_filter_date,
    List.nil_append]

/-- C4: the materializer deletes all rows of the run date and
bulk-inserts the merged rows inside a single transaction: either the
transaction commits and the store becomes the full delete-then-insert
result, or it fails, is rolled back, and the store is left exactly
unchanged - no partial delete or partial insert ever survives. -/
theorem c4_materializer_transactional (failsBeforeCommit : Bool) (ds : Nat)
    (tp : List TopProductRow) (tc : List TopCtrRow) (store : List DbRow) :
    (db_writing_tx failsBeforeCommit ds tp tc store
        = ((store.filter fun r => decide (¬ r.date = ds))
            ++ merge_recommendations ds tp tc, none)
      ∨ db_writing_tx failsBeforeCommit ds tp tc store
          = (store, some PersistenceError.rolledBack)) ∧
    ((db_writing_tx failsBeforeCommit ds tp tc store).2 = none →
      (db_writing_tx failsBeforeCommit ds tp tc store).1 = db_writing ds tp tc store) ∧
    ((db_writing_tx failsBeforeCommit ds tp tc store).2 ≠ none →
      (db_writing_tx failsBeforeCommit ds tp tc store).1 = store) := by
  cases failsBeforeCommit <;>
    simp [db_writing_tx, runTransaction, db_writing, applyOps, applyOp, db_writing_ops]

/-- Witness for C4: a committed run materializes the delete-then-insert
result, and a failed run leaves a concrete store unchanged. -/
theorem c4_materializer_transactional_witness :
    (db_writing_tx false 3 [] [] []).1 = db_writing 3 [] [] [] ∧
    (db_writing_tx true 3 [] []
        [⟨3, 1, "top_product", 1, 1, none, none, none, none⟩]).1
      = [⟨3, 1, "top_product", 1, 1, none, none, none, none⟩] := by
  refine ⟨(c4_materializer_transactional false 3 [] [] []).2.1 rfl, ?_⟩
  exact (c4_materializer_transactional true 3 [] []
    [⟨3, 1, "top_product", 1, 1, none, none, none, none⟩]).2.2
    (by simp [db_writing_tx, runTransaction])

/-- C7: the filter keeps exactly the log rows whose advertiser_id occurs
among the advertiser ids of the registry; advertisers absent from the
registry are dropped without error, and an empty registry yields empty
filtered outputs rather than a failure. -/
theorem c7_filter_active_advertisers (advertisers : List AdvertiserRow)
    (pv : List ProductView) (ads : List AdView) :
    (∀ r, r ∈ (filtrar_datos advertisers pv ads).1 ↔
      r ∈ pv ∧ r.advertiser_id ∈ advertisers.map fun v => v.advertiser_id) ∧
    (∀ r, r ∈ (filtrar_datos advertisers pv ads).2 ↔
      r ∈ ads ∧ r.advertiser_id ∈ advertisers.map fun v => v.advertiser_id) ∧
    (advertisers = [] →
      (filtrar_datos advertisers pv ads).1 = [] ∧
      (filtrar_datos advertisers pv ads).2 = []) := by
  refine ⟨?_, ?_, ?_⟩
  · intro r
    simp [filtrar_datos, List.mem_filter]
  · intro r
    simp [filtrar_datos, List.mem_filter]
  · intro h
    subst h
    simp [filtrar_datos]

/-- Witness for C7: a registry row keeps a matching log row, and the
empty registry produces empty filtered outputs. -/
theorem c7_filter_active_advertisers_witness :
    ((⟨1, 2⟩ : ProductView) ∈ (filtrar_datos [⟨1⟩] [⟨1, 2⟩] []).1) ∧
    (filtrar_datos [] [⟨1, 2⟩] [⟨1, 3, "click"⟩]).1 = [] ∧
    (filtrar_datos [] [⟨1, 2⟩] [⟨1, 3, "click"⟩]).2 = [] := by
  refine ⟨?_, ?_⟩
  · exact ((c7_filter_active_advertisers [⟨1⟩] [⟨1, 2⟩] []).1 ⟨1, 2⟩).mpr
      ⟨by simp, by simp⟩
  · exact (c7_filter_active_advertisers [] [⟨1, 2⟩] [⟨1, 3, "click"⟩]).2.2 rfl

/-- Counterexample for C8: a malformed product-view row (null
product_id) is silently dropped by the aggregation - the pipeline
output on an input containing the malformed row is identical to the
output without it, so no dropped-row total is counted or surfaced
anywhere in the pipeline's observable results. -/
theorem c8_counterexample :
    calcular_top_product_raw [⟨1, none⟩, ⟨1, some 7⟩]
        = calcular_top_product_raw [⟨1, some 7⟩] ∧
    calcular_top_product_raw [⟨1, none⟩, ⟨1, some 7⟩]
        = [⟨1, 7, 1, "top_product", 1⟩] := by
  constructor <;> decide

/-- C8 (amended): rows failing shape validation (null product_id) are
dropped by the pandas groupby and the run continues - the pipeline
output equals the output on only the well-formed rows - but the
dropped rows are not counted or surfaced anywhere. -/
theorem c8_malformed_rows_silently_dropped (rows : List RawProductView) :
    calcular_top_product_raw rows
      = calcular_top_product_raw (rows.filter fun r => r.product_id.isSome) := by
  unfold calcular_top_product_raw
  rw [group_views_raw_filter]

end TpPipeline

namespace TpPipeline

/-- C6: the merger output is exactly the union of the two ranker
outputs - its length is the sum of the two input lengths, nothing is
dropped or duplicated - under one uniform column set: top_product rows
carry views and null impressions/clicks/ctr, top_ctr rows carry
impressions/clicks/ctr and null views, and every record is stamped with
the explicitly supplied run date (the DAG execution date, not the
wall clock). -/
theorem c6_merger_union (ds : Nat) (pv : List ProductView) (ads : List AdView) :
    (merge_recommendations ds (calcular_top_product pv) (calcular_top_ctr ads)).length
        = (calcular_top_product pv).length + (calcular_top_ctr ads).length ∧
    ∀ r ∈ merge_recommendations ds (calcular_top_product pv) (calcular_top_ctr ads),
      r.date = ds ∧
      (r.model = "top_product" → r.views.isSome ∧ r.impressions = none ∧
        r.clicks = none ∧ r.ctr = none) ∧
      (r.model = "top_ctr" → r.views = none ∧ r.impressions.isSome ∧
        r.clicks.isSome ∧ r.ctr.isSome) := by
  constructor
  · simp [merge_recommendations]
  · intro r hr
    refine ⟨merge_date _ _ _ r hr, ?_, ?_⟩
    · intro hmodel
      unfold merge_recommendations at hr
      rcases List.mem_append.mp hr with h | h
      · rcases List.mem_map.mp h with ⟨x, _, rfl⟩
        exact ⟨rfl, rfl, rfl, rfl⟩
      · rcases List.mem_map.mp h with ⟨x, hx, rfl⟩
        have hx2 : x.model = "top_ctr" := top_ctr_model (group_ads ads) x hx
        dsimp at hmodel
        rw [hx2] at hmodel
        exact absurd hmodel (by decide)
    · intro hmodel
      unfold merge_recommendations at hr
      rcases List.mem_append.mp hr with h | h
      · rcases List.mem_map.mp h with ⟨x, hx, rfl⟩
        have hx2 : x.model = "top_product" := top_product_model (group_views pv) x hx
        dsimp at hmodel
        rw [hx2] at hmodel
        exact absurd hmodel (by decide)
      · rcases List.mem_map.mp h with ⟨x, _, rfl⟩
        exact ⟨rfl, rfl, rfl, rfl⟩

/-- Witness for C6: on a one-row product log and a one-row ad log the
merged output has one row per ranker, and its top_product row carries
views with null ad columns. -/
theorem c6_merger_union_witness :
    (merge_recommendations 9 (calcular_top_product [⟨1, 2⟩])
        (calcular_top_ctr [⟨1, 3, "impression"⟩])).length
      = (calcular_top_product [⟨1, 2⟩]).length
        + (calcular_top_ctr [⟨1, 3, "impression"⟩]).length ∧
    (⟨9, 1, "top_product", 2, 1, some 1, none, none, none⟩ : DbRow).views.isSome ∧
    (⟨9, 1, "top_product", 2, 1, some 1, none, none, none⟩ : DbRow).ctr = none := by
  have hm : (⟨9, 1, "top_product", 2, 1, some 1, none, none, none⟩ : DbRow)
      ∈ merge_recommendations 9 (calcular_top_product [⟨1, 2⟩])
        (calcular_top_ctr [⟨1, 3, "impression"⟩]) := by
    simp [merge_recommendations, calcular_top_product, top_product_of_views,
      group_views, viewKeys, List.insertionSort, List.orderedInsert, groupbyHead,
      cumcount, countFor, List.dedup, List.pwFilter, List.countP, List.countP.go]
  have h := (c6_merger_union 9 [⟨1, 2⟩] [⟨1, 3, "impression"⟩]).2 _ hm
  exact ⟨(c6_merger_union 9 [⟨1, 2⟩] [⟨1, 3, "impression"⟩]).1,
    (h.2.1 rfl).1, (h.2.1 rfl).2.2.2⟩

end TpPipeline

namespace ServingApi

/-- Counterexample for C9: the tp-api implementation of the
recommendations endpoint returns a stored NaN ctr verbatim - the
non-finite value is propagated to the caller, not represented as
null. -/
theorem c9_counterexample :
    tp_api_recommendations 1 "top_ctr"
        [⟨5, 1, "top_ctr", 3, 1, none, some 10, some 5, some PyFloat.nan⟩]
      = Except.ok [⟨1, 3, none, some 10, some 5, some PyFloat.nan⟩] ∧
    isFiniteNum PyFloat.nan = false ∧
    some PyFloat.nan ≠ (none : Option PyFloat) := by
  refine ⟨rfl, rfl, by decide⟩

/-- C9 (amended): in `src/main.py` every row returned by the
recommendations endpoint comes from a stored row through `safe_float`
on its ctr column, so a non-finite (NaN or infinite) stored ctr is
represented as null in the response; the duplicate tp-api
implementation propagates the raw ctr instead. -/
theorem c9_main_api_sanitizes (adv : Nat) (model : String) (today : Nat)
    (db : List StoredRow) (recs : List ApiRec)
    (hok : get_recommendations adv model today db = Except.ok recs) :
    ∀ rec ∈ recs, ∃ r, r ∈ db ∧ rec = main_api_rec r ∧ rec.ctr = safe_float r.ctr ∧
      (∀ f, r.ctr = some f → isFiniteNum f = false → rec.ctr = none) := by
  simp only [get_recommendations] at hok
  split at hok
  · split at hok
    · cases hok
    · have hrecs : (List.insertionSort rankLe (db.filter fun r =>
          r.date == today && r.advertiser_id == adv
            && r.model == pyLower model)).map main_api_rec = recs := by
        injection hok
      subst hrecs
      intro rec hrec
      rcases List.mem_map.mp hrec with ⟨r, hr, rfl⟩
      have hrdb : r ∈ db := by
        have : r ∈ db.filter fun r => r.date == today && r.advertiser_id == adv
            && r.model == pyLower model := by simpa using hr
        exact (List.mem_filter.mp this).1
      refine ⟨r, hrdb, rfl, rfl, ?_⟩
      intro f hf hnf
      have : (main_api_rec r).ctr = safe_float r.ctr := rfl
      rw [this, hf]
      cases f with
      | nan => rfl
      | posInf => rfl
      | negInf => rfl
      | val q => simp [isFiniteNum] at hnf
  · cases hok

/-- Witness for C9: a concrete stored row with `ctr = NaN` is returned
by `src/main.py` with a null ctr. -/
theorem c9_main_api_sanitizes_witness :
    ∃ r, r ∈ [(⟨5, 1, "top_product", 3, 1, some 9, none, none,
        some PyFloat.nan⟩ : StoredRow)] ∧
      (⟨5, 1, "top_product", 3, 1, some 9, none, none, none⟩ : ApiRec)
        = main_api_rec r ∧
      (⟨5, 1, "top_product", 3, 1, some 9, none, none, none⟩ : ApiRec).ctr
        = safe_float r.ctr ∧
      (∀ f, r.ctr = some f → isFiniteNum f = false →
        (⟨5, 1, "top_product", 3, 1, some 9, none, none, none⟩ : ApiRec).ctr = none) :=
  c9_main_api_sanitizes 1 "top_product" 5
    [⟨5, 1, "top_product", 3, 1, some 9, none, none, some PyFloat.nan⟩]
    [⟨5, 1, "top_product", 3, 1, some 9, none, none, none⟩] rfl
    ⟨5, 1, "top_product", 3, 1, some 9, none, none, none⟩ (by simp)

/-- C10: both implementations of the recommendations endpoint reject a
model path parameter whose lower-cased value is neither "top_product"
nor "top_ctr" with HTTP 400, for every advertiser and regardless of the
database contents (so before any query can matter). -/
theorem c10_invalid_model_http_400 (adv : Nat) (model : String) (today : Nat)
    (db db2 : List StoredRow)
    (h : ¬ pyLower model ∈ ALLOWED_MODELS) :
    get_recommendations adv model today db = Except.error 400 ∧
    tp_api_recommendations adv model db2 = Except.error 400 := by
  constructor
  · have h2 : ¬ (pyLower model = "top_product" ∨ pyLower model = "top_ctr") := by
      simpa [ALLOWED_MODELS] using h
    simp [get_recommendations, h2]
  · simp [tp_api_recommendations, h]

/-- Witness for C10: the model "Banana" is rejected with 400 by both
implementations, even on a database that has rows. -/
theorem c10_invalid_model_http_400_witness :
    get_recommendations 7 "Banana" 0
        [⟨0, 7, "top_product", 1, 1, some 2, none, none, none⟩]
      = Except.error 400 ∧
    tp_api_recommendations 7 "Banana"
        [⟨0, 7, "top_product", 1, 1, some 2, none, none, none⟩]
      = Except.error 400 :=
  c10_invalid_model_http_400 7 "Banana" 0
    [⟨0, 7, "top_product", 1, 1, some 2, none, none, none⟩]
    [⟨0, 7, "top_product", 1, 1, some 2, none, none, none⟩] (by decide)

end ServingApi

namespace TpPipeline

theorem merge_filter_model_tp (ds a : Nat) (pvf : List ProductView) (adf : List AdView) :
    (merge_recommendations ds (calcular_top_product pvf)
        (calcular_top_ctr adf)).filter
        (fun r => r.date == ds && r.advertiser_id == a && r.model == "top_product")
      = ((calcular_top_product pvf).filter fun r => r.advertiser_id == a).map
          fun r => (⟨ds, r.advertiser_id, r.model, r.product_id, r.rank,
            some r.views, none, none, none⟩ : DbRow) := by
  unfold merge_recommendations
  rw [List.filter_append]
  have htc : (((calcular_top_ctr adf).map fun r =>
      (⟨ds, r.advertiser_id, r.model, r.product_id, r.rank, none,
        some r.impressions, some r.clicks, some r.ctr⟩ : DbRow)).filter
      (fun r => r.date == ds && r.advertiser_id == a && r.model == "top_product")) = [] := by
    rw [List.filter_eq_nil_iff]
    intro r hr
    rcases List.mem_map.mp hr with ⟨x, hx, rfl⟩
    have hx2 := top_ctr_model (group_ads adf) x hx
    simp [hx2]
  rw [htc, List.append_nil, List.filter_map]
  refine congrArg _ (List.filter_congr ?_)
  intro x hx
  have hx2 := top_product_model (group_views pvf) x hx
  simp [Function.comp, hx2]

theorem merge_filter_model_ctr (ds a : Nat) (pvf : List ProductView) (adf : List AdView) :
    (merge_recommendations ds (calcular_top_product pvf)
        (calcular_top_ctr adf)).filter
        (fun r => r.date == ds && r.advertiser_id == a && r.model == "top_ctr")
      = ((calcular_top_ctr adf).filter fun r => r.advertiser_id == a).map
          fun r => (⟨ds, r.advertiser_id, r.model, r.product_id, r.rank,
            none, some r.impressions, some r.clicks, some r.ctr⟩ : DbRow) := by
  unfold merge_recommendations
  rw [List.filter_append]
  have htp : (((calcular_top_product pvf).map fun r =>
      (⟨ds, r.advertiser_id, r.model, r.product_id, r.rank, some r.views,
        none, none, none⟩ : DbRow)).filter
      (fun r => r.date == ds && r.advertiser_id == a && r.model == "top_ctr")) = [] := by
    rw [List.filter_eq_nil_iff]
    intro r hr
    rcases List.mem_map.mp hr with ⟨x, hx, rfl⟩
    have hx2 := top_product_model (group_views pvf) x hx
    simp [hx2]
  rw [htp, List.nil_append, List.filter_map]
  refine congrArg _ (List.filter_congr ?_)
  intro x hx
  have hx2 := top_ctr_model (group_ads adf) x hx
  simp [Function.comp, hx2]

theorem merge_filter_model_other (ds a : Nat) (m : String)
    (pvf : List ProductView) (adf : List AdView)
    (hm1 : ¬ m = "top_product") (hm2 : ¬ m = "top_ctr") :
    (merge_recommendations ds (calcular_top_product pvf)
        (calcular_top_ctr adf)).filter
        (fun r => r.date == ds && r.advertiser_id == a && r.model == m) = [] := by
  rw [List.filter_eq_nil_iff]
  intro r hr
  unfold merge_recommendations at hr
  rcases List.mem_append.mp hr with h | h
  · rcases List.mem_map.mp h with ⟨x, hx, rfl⟩
    have hx2 := top_product_model (group_views pvf) x hx
    simp [hx2]
    intro _ heq
    exact hm1 heq.symm
  · rcases List.mem_map.mp h with ⟨x, hx, rfl⟩
    have hx2 := top_ctr_model (group_ads adf) x hx
    simp [hx2]
    intro _ heq
    exact hm2 heq.symm

end TpPipeline

namespace TpPipeline

/-- C5: for every (run date, advertiser, model) slice of the
materialized output of a full pipeline run, the rank values form the
contiguous 1-based sequence 1..k (hence no duplicates) with k at most
20. -/
theorem c5_ranks_contiguous (ds : Nat) (advertisers : List AdvertiserRow)
    (pv : List ProductView) (ads : List AdView) (store : List DbRow)
    (a : Nat) (m : String) :
    ((pipeline_run ds advertisers pv ads store).filter
        (fun r => r.date == ds && r.advertiser_id == a && r.model == m)).map
        (fun r => r.rank)
      = List.range' 1 ((pipeline_run ds advertisers pv ads store).filter
          (fun r => r.date == ds && r.advertiser_id == a && r.model == m)).length ∧
    ((pipeline_run ds advertisers pv ads store).filter
        (fun r => r.date == ds && r.advertiser_id == a && r.model == m)).length ≤ 20 := by
  have hsplit : (pipeline_run ds advertisers pv ads store).filter
        (fun r => r.date == ds && r.advertiser_id == a && r.model == m)
      = (merge_recommendations ds
          (calcular_top_product (filtrar_datos advertisers pv ads).1)
          (calcular_top_ctr (filtrar_datos advertisers pv ads).2)).filter
          (fun r => r.date == ds && r.advertiser_id == a && r.model == m) := by
    unfold pipeline_run
    rw [db_writing_eq, List.filter_append]
    have hstore : (store.filter fun r => decide (¬ r.date = ds)).filter
        (fun r => r.date == ds && r.advertiser_id == a && r.model == m) = [] := by
      rw [List.filter_eq_nil_iff]
      intro r hr
      have h2 := (List.mem_filter.mp hr).2
      simp at h2
      simp [h2]
    rw [hstore, List.nil_append]
  rw [hsplit]
  by_cases hm1 : m = "top_product"
  · subst hm1
    rw [merge_filter_model_tp, List.map_map, List.length_map]
    constructor
    · exact top_product_filter_ranks
        (group_views (filtrar_datos advertisers pv ads).1) a
    · exact top_product_filter_length
        (group_views (filtrar_datos advertisers pv ads).1) a
  · by_cases hm2 : m = "top_ctr"
    · subst hm2
      rw [merge_filter_model_ctr, List.map_map, List.length_map]
      constructor
      · exact top_ctr_filter_ranks
          (group_ads (filtrar_datos advertisers pv ads).2) a
      · exact top_ctr_filter_length
          (group_ads (filtrar_datos advertisers pv ads).2) a
    · rw [merge_filter_model_other ds a m _ _ hm1 hm2]
      simp

/-- C1: the TopProductRanker sets `views` to the row count of each
(advertiser_id, product_id) group, sorts the groups by advertiser
ascending and, within each advertiser, by views descending with ties
broken by ascending product_id (the stable sort preserves the
ascending-key group order), and on the spec's worked example
(A1/P1 x3, A1/P2 x3, A1/P3 x1) outputs rank1=P1 views=3,
rank2=P2 views=3, rank3=P3 views=1. -/
theorem c1_top_product_ranking (rows : List ProductView) :
    (∀ r ∈ List.insertionSort tpLe (group_views rows),
      r.views = rows.countP fun v =>
        v.advertiser_id == r.advertiser_id && v.product_id == r.product_id) ∧
    (List.insertionSort tpLe (group_views rows)).Pairwise tpFullLt ∧
    calcular_top_product [⟨1, 1⟩, ⟨1, 2⟩, ⟨1, 3⟩, ⟨1, 1⟩, ⟨1, 2⟩, ⟨1, 1⟩, ⟨1, 2⟩]
      = [⟨1, 1, 3, "top_product", 1⟩, ⟨1, 2, 3, "top_product", 2⟩,
         ⟨1, 3, 1, "top_product", 3⟩] :=
  ⟨fun _ hr => views_count_of_mem hr, top_product_order rows, by decide⟩

/-- Witness for C1: on the worked example, the group A1/P1 indeed
carries views = its row count. -/
theorem c1_top_product_ranking_witness :
    (⟨1, 1, 3⟩ : ViewsRow).views
      = ([⟨1, 1⟩, ⟨1, 2⟩, ⟨1, 3⟩, ⟨1, 1⟩, ⟨1, 2⟩, ⟨1, 1⟩, ⟨1, 2⟩] :
            List ProductView).countP
          (fun v => v.advertiser_id == (⟨1, 1, 3⟩ : ViewsRow).advertiser_id
            && v.product_id == (⟨1, 1, 3⟩ : ViewsRow).product_id) :=
  (c1_top_product_ranking [⟨1, 1⟩, ⟨1, 2⟩, ⟨1, 3⟩, ⟨1, 1⟩, ⟨1, 2⟩, ⟨1, 1⟩, ⟨1, 2⟩]).1
    ⟨1, 1, 3⟩ (by decide)

/-- Counterexample for C2: on an ad log where a pair receives more
clicks than impressions, the stored top_ctr row has ctr = 2, outside
[0, 1], so the claim's unconditional bound fails on the code. -/
theorem c2_counterexample :
    ¬ (∀ r ∈ calcular_top_ctr [⟨1, 1, "click"⟩, ⟨1, 1, "click"⟩, ⟨1, 1, "impression"⟩],
        0 ≤ r.ctr ∧ r.ctr ≤ 1) := by
  intro h
  have h2 := h ⟨1, 1, 1, 2, 2, "top_ctr", 1⟩ (by
    simp [calcular_top_ctr, top_ctr_of_agg, group_ads, adKeys, List.insertionSort,
      List.orderedInsert, groupbyHead, cumcount, countFor, List.dedup, List.pwFilter,
      List.countP, List.countP.go, pairLe, ctrLe])
  have h3 : ¬ ((2 : ℚ) ≤ 1) := by norm_num
  exact h3 h2.2

/-- C2 (amended): every stored top_ctr row aggregates exactly its
group's impression and click counts, has impressions > 0,
ctr = clicks / impressions and ctr >= 0; under the event-semantics
assumption clicks <= impressions per group, ctr <= 1 as well; and no
row is stored for a pair whose impression total is 0. -/
theorem c2_top_ctr_bounds (rows : List AdView) :
    (∀ r ∈ calcular_top_ctr rows,
      0 < r.impressions ∧
      r.impressions = rows.countP (fun v => v.advertiser_id == r.advertiser_id &&
        v.product_id == r.product_id && v.type == "impression") ∧
      r.clicks = rows.countP (fun v => v.advertiser_id == r.advertiser_id &&
        v.product_id == r.product_id && v.type == "click") ∧
      r.ctr = (r.clicks : ℚ) / (r.impressions : ℚ) ∧
      0 ≤ r.ctr) ∧
    ((∀ a p : Nat, rows.countP (fun v => v.advertiser_id == a &&
          v.product_id == p && v.type == "click")
        ≤ rows.countP (fun v => v.advertiser_id == a &&
          v.product_id == p && v.type == "impression")) →
      ∀ r ∈ calcular_top_ctr rows, r.ctr ≤ 1) ∧
    (∀ a p : Nat, rows.countP (fun v => v.advertiser_id == a &&
        v.product_id == p && v.type == "impression") = 0 →
      ∀ r ∈ calcular_top_ctr rows, ¬ (r.advertiser_id = a ∧ r.product_id = p)) := by
  refine ⟨?_, ?_, ?_⟩
  · intro r hr
    obtain ⟨h1, h2, h3, h4⟩ := top_ctr_mem hr
    refine ⟨h1, h2, h3, h4, ?_⟩
    rw [h4]
    exact div_nonneg (Nat.cast_nonneg _) (Nat.cast_nonneg _)
  · intro hcl r hr
    obtain ⟨h1, h2, h3, h4⟩ := top_ctr_mem hr
    rw [h4, div_le_one (by exact_mod_cast h1)]
    have h5 := hcl r.advertiser_id r.product_id
    rw [← h3, ← h2] at h5
    exact_mod_cast h5
  · intro a p h0 r hr hap
    obtain ⟨h1, h2, _, _⟩ := top_ctr_mem hr
    rw [hap.1, hap.2] at h2
    rw [h0] at h2
    omega

/-- Witness for C2: on a one-impression log the stored row has
impressions = 1 > 0 and ctr <= 1 (clicks never exceed impressions
there). -/
theorem c2_top_ctr_bounds_witness :
    0 < (⟨1, 1, 1, 0, 0, "top_ctr", 1⟩ : TopCtrRow).impressions ∧
    (⟨1, 1, 1, 0, 0, "top_ctr", 1⟩ : TopCtrRow).ctr ≤ 1 := by
  have hmem : (⟨1, 1, 1, 0, 0, "top_ctr", 1⟩ : TopCtrRow)
      ∈ calcular_top_ctr [⟨1, 1, "impression"⟩] := by
    simp [calcular_top_ctr, top_ctr_of_agg, group_ads, adKeys, List.insertionSort,
      List.orderedInsert, groupbyHead, cumcount, countFor, List.dedup, List.pwFilter,
      List.countP, List.countP.go, pairLe, ctrLe]
  refine ⟨((c2_top_ctr_bounds [⟨1, 1, "impression"⟩]).1 _ hmem).1, ?_⟩
  refine (c2_top_ctr_bounds [⟨1, 1, "impression"⟩]).2.1 ?_ _ hmem
  intro a p
  simp [List.countP, List.countP.go]

end TpPipeline
